import Mathlib

/-!
Shallow embedding of the esp32-thinkink-epaper-slideshow firmware
(src/main/image_loader.cpp, src/main/slideshow.cpp, src/main/sd_card.cpp,
src/main/config.hpp) together with theorems settling the spec claims.

Machine integers are modelled as Nat; the C arithmetic in the embedded
fragments never overflows its C types (e.g. r*30 + g*59 + b*11 is at most
25500, well inside int), so the Nat model is exact where it is used.
-/

namespace Slideshow

/-- Modelled from the spec: the abstract tricolor ink states BLACK, WHITE,
RED written by the renderer. The concrete EPD_BLACK / EPD_WHITE / EPD_RED
constants come from the Adafruit_EPD library, which is outside this tree;
the spec treats them as three distinct abstract color codes. -/
inductive EinkColor where
  | black
  | white
  | red
deriving DecidableEq

/-- Embedding of ImageLoader::rgbToEinkColor (image_loader.cpp lines 17-34):
gray = (r*30 + g*59 + b*11) / 100, isRed = (r > 128 and r > g and r > b);
gray < 85 gives BLACK, else isRed and gray > 100 gives RED, else WHITE. -/
def rgbToEinkColor (r g b : Nat) : EinkColor :=
  let gray := (r * 30 + g * 59 + b * 11) / 100
  let isRed := r > 128 && r > g && r > b
  if gray < 85 then .black
  else if isRed && gray > 100 then .red
  else .white

/-- Embedding of the 8 bpp per-pixel color decision in loadAndDisplayBMP
(image_loader.cpp line 144): color = (gray < 128) ? EPD_BLACK : EPD_WHITE.
The byte is thresholded directly; rgbToEinkColor is not called. -/
def eightBppColor (gray : Nat) : EinkColor :=
  if gray < 128 then .black else .white

/-- Embedding of the 8 bpp source fetch (image_loader.cpp line 142):
gray = pixelData[srcY * rowSize + srcX], then the direct threshold. -/
def eightBppPixel (pixelData : List Nat) (rowSize srcY srcX : Nat) : EinkColor :=
  eightBppColor (pixelData.getD (srcY * rowSize + srcX) 0)

/-- Row stride used by the 24 bpp branch (image_loader.cpp line 110). -/
def rowSize24 (w : Nat) : Nat := ((w * 3 + 3) / 4) * 4

/-- Row stride used by the 8 bpp branch (image_loader.cpp line 133). -/
def rowSize8 (w : Nat) : Nat := ((w + 3) / 4) * 4

/-- Row stride used by the 1 bpp branch (image_loader.cpp line 150). -/
def rowSize1 (w : Nat) : Nat := ((w + 7) / 8 + 3) / 4 * 4

/-- The stride law stated by the spec: ((bpp * w + 31) / 32) * 4, which is
ceil(bpp * w / 32) * 4 in integer arithmetic. -/
def specStride (bpp w : Nat) : Nat := ((bpp * w + 31) / 32) * 4

/-- Embedding of the BMP header record (image_loader.hpp lines 21-38).
All sixteen fields of the packed C struct are carried; width and height
are signed in the source and are modelled as Int. -/
structure BMPHeader where
  signature : Nat
  fileSize : Nat
  reserved1 : Nat
  reserved2 : Nat
  dataOffset : Nat
  headerSize : Nat
  width : Int
  height : Int
  planes : Nat
  bitsPerPixel : Nat
  compression : Nat
  imageSize : Nat
  xPixelsPerM : Int
  yPixelsPerM : Int
  colorsUsed : Nat
  colorsImportant : Nat
deriving DecidableEq

/-- The failure cases that loadAndDisplayBMP can actually take before the
pixel loops (image_loader.cpp lines 45-82): a too-small or unreadable
file, a bad signature, or an unsupported bit depth. The code performs no
further validation. -/
inductive LoadFailure where
  | tooShort
  | badSignature
  | unsupportedDepth
deriving DecidableEq

/-- The size in bytes of the packed BMPHeader struct (sizeof(BMPHeader)). -/
def bmpHeaderSize : Nat := 54

/-- Embedding of the validation sequence of loadAndDisplayBMP
(image_loader.cpp lines 45-82), in source order: reject when the reported
file size is negative or below sizeof(BMPHeader); reject when the
signature differs from 0x4D42; reject when bitsPerPixel is none of
1, 4, 8, 24. No other header field is inspected before rendering. -/
def checkBMPHeader (fileSize : Int) (h : BMPHeader) : Option LoadFailure :=
  if fileSize < 0 || fileSize < (bmpHeaderSize : Int) then some .tooShort
  else if h.signature != 0x4D42 then some .badSignature
  else if h.bitsPerPixel != 1 && h.bitsPerPixel != 4 &&
          h.bitsPerPixel != 8 && h.bitsPerPixel != 24 then some .unsupportedDepth
  else none

/-- The decoder accepts the file exactly when the validation sequence
falls through every check. -/
def bmpAccepted (fileSize : Int) (h : BMPHeader) : Bool :=
  (checkBMPHeader fileSize h).isNone

/-- Image width as the pixel loops see it (image_loader.cpp line 85):
imgWidth = abs(header->width). -/
def imgWidth (h : BMPHeader) : Nat := h.width.natAbs

/-- Image height as the pixel loops see it (image_loader.cpp line 86). -/
def imgHeight (h : BMPHeader) : Nat := h.height.natAbs

/-- A header whose fields all pass the checks the code performs; used to
build concrete counterexamples by overriding single fields. -/
def plainHeader : BMPHeader where
  signature := 0x4D42
  fileSize := 100
  reserved1 := 0
  reserved2 := 0
  dataOffset := 54
  headerSize := 40
  width := 4
  height := 4
  planes := 1
  bitsPerPixel := 24
  compression := 0
  imageSize := 0
  xPixelsPerM := 0
  yPixelsPerM := 0
  colorsUsed := 0
  colorsImportant := 0

/-- Embedding of the State enum (slideshow.hpp lines 22-29). -/
inductive State where
  | INIT
  | SCANNING
  | DISPLAYING
  | AUTO_ADVANCE
  | ERROR
  | SLEEPING
deriving DecidableEq

/-- Embedding of SlideshowButtonId (button.hpp lines 12-16). -/
inductive ButtonId where
  | UP
  | SELECT
  | DOWN
deriving DecidableEq

/-- Embedding of SlideshowButtonEvent (button.hpp lines 18-21). -/
structure ButtonEvent where
  id : ButtonId
  pressed : Bool
deriving DecidableEq

/-- The controller-owned mutable state of slideshow.cpp (lines 25-30):
s_state, the image list (kept abstractly as its length imageCount),
s_currentImageIndex, s_autoAdvance and s_lastAutoAdvanceTick. Ticks are
modelled as Nat and assumed monotone, abstracting the wrap-free range of
TickType_t. -/
structure ControllerState where
  state : State
  imageCount : Nat
  currentImageIndex : Nat
  autoAdvance : Bool
  lastAutoAdvanceTick : Nat
deriving DecidableEq

/-- Embedding of displayCurrentImage (slideshow.cpp lines 212-230),
instrumented with the number of load attempts. The environment is
abstracted by loadOk, telling for each index whether
ImageLoader::loadAndDisplayBMP succeeds on that image. The function
returns the final value of s_currentImageIndex together with how many
loads were attempted. On a failed load the index advances by one modulo
the list size and the function recurses unless the new index is 0. -/
def displayCurrentImageRun (loadOk : Nat → Bool) (n i : Nat) : Nat × Nat :=
  if h : n = 0 || decide (i ≥ n) then (i, 0)
  else if loadOk i then (i, 1)
  else if h2 : (i + 1) % n ≠ 0 then
    ((displayCurrentImageRun loadOk n ((i + 1) % n)).1,
     (displayCurrentImageRun loadOk n ((i + 1) % n)).2 + 1)
  else ((i + 1) % n, 1)
termination_by n - i
decreasing_by
  all_goals
    simp only [Bool.or_eq_true, decide_eq_true_eq, not_or] at h
    have hi : i < n := Nat.lt_of_not_le h.2
    have hlt : i + 1 < n := by
      rcases Nat.lt_or_ge (i + 1) n with hc | hc
      · exact hc
      · exfalso
        have he : i + 1 = n := Nat.le_antisymm hi hc
        apply h2
        simp [he, Nat.mod_self]
    have he2 : (i + 1) % n = i + 1 := Nat.mod_eq_of_lt hlt
    omega

/-- The index update performed by displayCurrentImage, ignoring the
attempt count. -/
def displayCurrentImage (loadOk : Nat → Bool) (n i : Nat) : Nat :=
  (displayCurrentImageRun loadOk n i).1

/-- Embedding of handleButton (slideshow.cpp lines 167-210). Outside
DISPLAYING it returns at once. UP moves to the previous image (size-1
from index 0, else index-1), DOWN to the next image modulo the size,
SELECT toggles auto-advance and resets the auto-advance tick; each of the
three re-renders through displayCurrentImage, whose failure skipping may
move the index further. The bool output records whether anything was
drawn to the display. The now argument stands for the values
xTaskGetTickCount() returns during the call. -/
def handleButton (loadOk : Nat → Bool) (now : Nat) (s : ControllerState)
    (evt : ButtonEvent) : ControllerState × Bool :=
  if s.state ≠ .DISPLAYING then (s, false)
  else
    match evt.id with
    | .UP =>
      if s.imageCount > 0 then
        let i1 := if s.currentImageIndex = 0 then s.imageCount - 1
                  else s.currentImageIndex - 1
        let i2 := displayCurrentImage loadOk s.imageCount i1
        ({ s with currentImageIndex := i2, lastAutoAdvanceTick := now }, true)
      else (s, false)
    | .DOWN =>
      if s.imageCount > 0 then
        let i1 := (s.currentImageIndex + 1) % s.imageCount
        let i2 := displayCurrentImage loadOk s.imageCount i1
        ({ s with currentImageIndex := i2, lastAutoAdvanceTick := now }, true)
      else (s, false)
    | .SELECT =>
      let i2 := displayCurrentImage loadOk s.imageCount s.currentImageIndex
      ({ s with autoAdvance := !s.autoAdvance,
                lastAutoAdvanceTick := now,
                currentImageIndex := i2 }, true)

/-- Auto-advance delay in milliseconds: AUTO_ADVANCE_DELAY_SEC * 1000
with AUTO_ADVANCE_DELAY_SEC = 10 (config.hpp line 71, slideshow.cpp
line 127). Ticks are modelled in milliseconds. -/
def autoAdvanceDelayMs : Nat := 10 * 1000

/-- Embedding of the auto-advance block of Slideshow::task (slideshow.cpp
lines 123-133): in DISPLAYING with auto-advance on and at least the delay
elapsed since lastAutoAdvanceTick, advance the index by one modulo the
size, re-render, and record the tick. -/
def autoAdvanceStep (loadOk : Nat → Bool) (now : Nat) (s : ControllerState) :
    ControllerState :=
  if s.state = .DISPLAYING && s.autoAdvance then
    if now - s.lastAutoAdvanceTick ≥ autoAdvanceDelayMs then
      let i1 := (s.currentImageIndex + 1) % s.imageCount
      let i2 := displayCurrentImage loadOk s.imageCount i1
      { s with currentImageIndex := i2, lastAutoAdvanceTick := now }
    else s
  else s

/-- Cap on returned image paths: MAX_IMAGE_FILES (config.hpp line 77). -/
def MAX_IMAGE_FILES : Nat := 100

/-- Recognized extensions (config.hpp line 80), as character lists. -/
def IMAGE_EXTENSIONS : List (List Char) :=
  [['.', 'b', 'm', 'p'], ['.', 'B', 'M', 'P']]

/-- A directory entry as readdir yields it: a name and whether the entry
is a directory (the d_type information the code never consults). Names
are character lists. -/
structure DirEntry where
  name : List Char
  isDir : Bool
deriving DecidableEq

/-- Embedding of the extension test of SDCard::scanForImages
(sd_card.cpp lines 133-142): the name matches when for some entry of
IMAGE_EXTENSIONS the name is at least as long and its tail of that
length equals the extension, i.e. the extension is a suffix. -/
def matchesExtension (name : List Char) : Bool :=
  IMAGE_EXTENSIONS.any fun ext =>
    decide (name.length ≥ ext.length) && ext.isSuffixOf name

/-- Embedding of the dot test of SDCard::scanForImages (sd_card.cpp line
127): d_name[0] == the dot character. An empty C string has a NUL first
byte, hence never matches. -/
def startsWithDot (name : List Char) : Bool :=
  match name with
  | [] => false
  | c :: _ => c = '.'

/-- An entry is pushed exactly when its name does not begin with a dot
and carries a recognized extension; the entry type is never inspected. -/
def entryAccepted (e : DirEntry) : Bool :=
  !startsWithDot e.name && matchesExtension e.name

/-- Embedding of the scan loop of SDCard::scanForImages (sd_card.cpp
lines 125-149): entries are visited in readdir order while count <
MAX_IMAGE_FILES; an accepted entry contributes directory/name and bumps
count. -/
def scanLoop (directory : List Char) : List DirEntry → Nat → List (List Char)
  | [], _ => []
  | e :: rest, count =>
    if count < MAX_IMAGE_FILES then
      if entryAccepted e then
        (directory ++ '/' :: e.name) :: scanLoop directory rest (count + 1)
      else scanLoop directory rest count
    else []

/-- Embedding of SDCard::scanForImages on an already mounted card and an
openable directory, starting from count = 0. -/
def scanForImages (directory : List Char) (entries : List DirEntry) :
    List (List Char) :=
  scanLoop directory entries 0

/-- Events that move the slideshow index: the UP and DOWN buttons and a
firing auto-advance tick, as claim-level abstractions of the handler
branches of handleButton and of the auto-advance block of the task. -/
inductive NavEvent where
  | up
  | down
  | auto
deriving DecidableEq

/-- The index update performed by one navigation event, read off the
corresponding source branch: UP (slideshow.cpp lines 174-182), DOWN
(lines 184-191), auto-advance (lines 128-131). Each assigns the new
index and then re-renders through displayCurrentImage, whose failure
skipping may move the index further. -/
def navStep (loadOk : Nat → Bool) (n : Nat) (i : Nat) : NavEvent → Nat
  | .up =>
    if n > 0 then
      displayCurrentImage loadOk n (if i = 0 then n - 1 else i - 1)
    else i
  | .down =>
    if n > 0 then displayCurrentImage loadOk n ((i + 1) % n) else i
  | .auto => displayCurrentImage loadOk n ((i + 1) % n)

/-- The index reached after a finite sequence of navigation events
starting from index 0. -/
def navRun (loadOk : Nat → Bool) (n : Nat) (events : List NavEvent) : Nat :=
  events.foldl (navStep loadOk n) 0

theorem displayCurrentImageRun_fst_lt (loadOk : Nat → Bool) (n : Nat) :
    ∀ k i, n - i ≤ k → i < n → (displayCurrentImageRun loadOk n i).1 < n := by
  intro k
  induction k with
  | zero => intro i hk hi; omega
  | succ k ih =>
    intro i hk hi
    rw [displayCurrentImageRun]
    split
    · next h =>
      simp only [Bool.or_eq_true, decide_eq_true_eq] at h
      omega
    · split
      · exact hi
      · split
        · next h2 =>
          have hlt : i + 1 < n := by
            rcases Nat.lt_or_ge (i + 1) n with hc | hc
            · exact hc
            · exfalso
              have he : i + 1 = n := by omega
              exact h2 (by simp [he, Nat.mod_self])
          have he2 : (i + 1) % n = i + 1 := Nat.mod_eq_of_lt hlt
          show (displayCurrentImageRun loadOk n ((i + 1) % n)).1 < n
          rw [he2]
          exact ih (i + 1) (by omega) hlt
        · show (i + 1) % n < n
          omega

theorem displayCurrentImageRun_loadOk (loadOk : Nat → Bool) (n i : Nat)
    (h : loadOk i = true) : displayCurrentImageRun loadOk n i = (i, 1) ∨
      displayCurrentImageRun loadOk n i = (i, 0) := by
  rw [displayCurrentImageRun]
  split
  · exact Or.inr rfl
  · exact Or.inl rfl

theorem displayCurrentImage_loadOk (loadOk : Nat → Bool) (n i : Nat)
    (h : loadOk i = true) : displayCurrentImage loadOk n i = i := by
  unfold displayCurrentImage
  rcases displayCurrentImageRun_loadOk loadOk n i h with h1 | h1 <;> rw [h1]

theorem displayCurrentImageRun_allFail (loadOk : Nat → Bool) (n : Nat)
    (hfail : ∀ j, loadOk j = false) :
    ∀ k i, n - i ≤ k → i < n → displayCurrentImageRun loadOk n i = (0, n - i) := by
  intro k
  induction k with
  | zero => intro i hk hi; omega
  | succ k ih =>
    intro i hk hi
    rw [displayCurrentImageRun]
    split
    · next h =>
      simp only [Bool.or_eq_true, decide_eq_true_eq] at h
      omega
    · split
      · next hl =>
        rw [hfail i] at hl
        exact Bool.noConfusion hl
      · split
        · next h2 =>
          have hlt : i + 1 < n := by
            rcases Nat.lt_or_ge (i + 1) n with hc | hc
            · exact hc
            · exfalso
              have he : i + 1 = n := by omega
              exact h2 (by simp [he, Nat.mod_self])
          have he2 : (i + 1) % n = i + 1 := Nat.mod_eq_of_lt hlt
          show ((displayCurrentImageRun loadOk n ((i + 1) % n)).1,
                (displayCurrentImageRun loadOk n ((i + 1) % n)).2 + 1) = (0, n - i)
          rw [he2, ih (i + 1) (by omega) hlt]
          have he3 : n - i = (n - (i + 1)) + 1 := by omega
          rw [he3]
        · next h2 =>
          have h0 : (i + 1) % n = 0 := by omega
          have he : n - i = 1 := by
            rcases Nat.lt_or_ge (i + 1) n with hc | hc
            · rw [Nat.mod_eq_of_lt hc] at h0; omega
            · omega
          show ((i + 1) % n, 1) = (0, n - i)
          rw [h0, he]

theorem displayCurrentImage_lt (loadOk : Nat → Bool) (n i : Nat) (hi : i < n) :
    displayCurrentImage loadOk n i < n :=
  displayCurrentImageRun_fst_lt loadOk n n i (by omega) hi

theorem navStep_lt (loadOk : Nat → Bool) (n : Nat) (hn : 1 ≤ n) (i : Nat)
    (hi : i < n) (e : NavEvent) : navStep loadOk n i e < n := by
  cases e with
  | up =>
    simp only [navStep]
    rw [if_pos (by omega : n > 0)]
    apply displayCurrentImage_lt
    split <;> omega
  | down =>
    simp only [navStep]
    rw [if_pos (by omega : n > 0)]
    exact displayCurrentImage_lt _ _ _ (Nat.mod_lt _ (by omega))
  | auto =>
    simp only [navStep]
    exact displayCurrentImage_lt _ _ _ (Nat.mod_lt _ (by omega))

theorem navRun_lt (loadOk : Nat → Bool) (n : Nat) (hn : 1 ≤ n)
    (events : List NavEvent) : navRun loadOk n events < n := by
  unfold navRun
  have hgen : ∀ (l : List NavEvent) (i : Nat), i < n →
      l.foldl (navStep loadOk n) i < n := by
    intro l
    induction l with
    | nil => intro i hi; exact hi
    | cons e rest ih =>
      intro i hi
      exact ih _ (navStep_lt loadOk n hn i hi e)
  exact hgen events 0 (by omega)

theorem navStep_formulas (loadOk : Nat → Bool) (n i : Nat) (hn : 1 ≤ n)
    (hi : i < n) (hok : ∀ j, loadOk j = true) :
    navStep loadOk n i .up = (i + n - 1) % n ∧
    navStep loadOk n i .down = (i + 1) % n ∧
    navStep loadOk n i .auto = (i + 1) % n := by
  refine ⟨?_, ?_, ?_⟩
  · simp only [navStep]
    rw [if_pos (by omega : n > 0), displayCurrentImage_loadOk _ _ _ (hok _)]
    by_cases h0 : i = 0
    · subst h0
      rw [if_pos rfl]
      have h1 : 0 + n - 1 = n - 1 := by omega
      rw [h1, Nat.mod_eq_of_lt (by omega)]
    · rw [if_neg h0]
      have h1 : i + n - 1 = n + (i - 1) := by omega
      rw [h1, Nat.add_mod_left, Nat.mod_eq_of_lt (by omega)]
  · simp only [navStep]
    rw [if_pos (by omega : n > 0)]
    exact displayCurrentImage_loadOk _ _ _ (hok _)
  · simp only [navStep]
    exact displayCurrentImage_loadOk _ _ _ (hok _)

/-- Claim C6 (confirmed): with a non-empty list of size n and any finite
sequence of UP, DOWN and auto-advance events applied from index 0, the
current index stays in the interval 0 ≤ index < n, for every pattern of
image-load outcomes (a failed load only re-applies the +1 mod n skip,
which preserves the interval); and when image loads succeed, UP maps
index i to (i + n - 1) mod n while DOWN and auto-advance map i to
(i + 1) mod n, exactly as claimed. -/
theorem nav_index_invariant (loadOk : Nat → Bool) (n : Nat) (hn : 1 ≤ n)
    (events : List NavEvent) :
    navRun loadOk n events < n ∧
    ((∀ j, loadOk j = true) → ∀ i, i < n →
      navStep loadOk n i .up = (i + n - 1) % n ∧
      navStep loadOk n i .down = (i + 1) % n ∧
      navStep loadOk n i .auto = (i + 1) % n) :=
  ⟨navRun_lt loadOk n hn events,
   fun hok i hi => navStep_formulas loadOk n i hn hi hok⟩

/-- Spot instance of nav_index_invariant at n = 3 on the event sequence
DOWN, DOWN, UP with all loads succeeding. -/
theorem nav_index_invariant_spot :
    1 ≤ 3 ∧
    navRun (fun _ => true) 3 [NavEvent.down, NavEvent.down, NavEvent.up] < 3 :=
  ⟨by decide,
   (nav_index_invariant (fun _ => true) 3 (by decide)
     [NavEvent.down, NavEvent.down, NavEvent.up]).1⟩

/-- Claim C7 (confirmed): starting from any index i < n over a list of
size n ≥ 1, if every load fails then displayCurrentImage advances by +1
modulo n after each failure, stops once the index wraps to 0, performs
exactly n - i (hence at most n) load attempts, and terminates (the
embedded function is total, with decreasing measure n - i). -/
theorem displayCurrentImage_allFail_bounded (loadOk : Nat → Bool) (n i : Nat)
    (_hn : 1 ≤ n) (hi : i < n) (hfail : ∀ j, loadOk j = false) :
    displayCurrentImageRun loadOk n i = (0, n - i) ∧
    (displayCurrentImageRun loadOk n i).2 ≤ n := by
  have h := displayCurrentImageRun_allFail loadOk n hfail n i (by omega) hi
  refine ⟨h, ?_⟩
  rw [h]
  show n - i ≤ n
  omega

/-- Spot instance of displayCurrentImage_allFail_bounded with n = 3 and
i = 1: two attempts, final index 0. -/
theorem displayCurrentImage_allFail_bounded_spot :
    1 ≤ 3 ∧ 1 < 3 ∧
    (displayCurrentImageRun (fun _ => false) 3 1 = (0, 3 - 1) ∧
     (displayCurrentImageRun (fun _ => false) 3 1).2 ≤ 3) :=
  ⟨by decide, by decide,
   displayCurrentImage_allFail_bounded (fun _ => false) 3 1 (by decide)
     (by decide) (fun _ => rfl)⟩

/-- Claim C9 (confirmed): a button event arriving while the state is not
DISPLAYING leaves the whole controller state (index, auto-advance flag,
state variant, tick) unchanged and draws nothing. -/
theorem handleButton_noop_outside_displaying (loadOk : Nat → Bool) (now : Nat)
    (s : ControllerState) (evt : ButtonEvent) (h : s.state ≠ .DISPLAYING) :
    handleButton loadOk now s evt = (s, false) := by
  unfold handleButton
  rw [if_pos h]

/-- Spot instance of handleButton_noop_outside_displaying in the ERROR
state on an UP press. -/
theorem handleButton_noop_outside_displaying_spot :
    (⟨State.ERROR, 3, 0, false, 0⟩ : ControllerState).state ≠ State.DISPLAYING ∧
    handleButton (fun _ => true) 7 ⟨State.ERROR, 3, 0, false, 0⟩
        ⟨ButtonId.UP, true⟩ =
      (⟨State.ERROR, 3, 0, false, 0⟩, false) :=
  ⟨by decide,
   handleButton_noop_outside_displaying (fun _ => true) 7 _ _ (by decide)⟩

/-- Claim C10 counterexample: in DISPLAYING with two images, index 1 and
every load failing, a SELECT press does not leave the index unchanged:
the re-render after the toggle fails, the skip policy advances the index
modulo 2, and it ends at 0. -/
theorem select_with_failed_load_moves_index :
    (⟨State.DISPLAYING, 2, 1, false, 0⟩ : ControllerState).currentImageIndex = 1 ∧
    (handleButton (fun _ => false) 5 ⟨State.DISPLAYING, 2, 1, false, 0⟩
        ⟨ButtonId.SELECT, true⟩).1.currentImageIndex = 0 := by
  constructor
  · rfl
  · have h := displayCurrentImageRun_allFail (fun _ => false) 2 (fun _ => rfl)
      2 1 (by decide) (by decide)
    simp [handleButton, displayCurrentImage, h]

/-- Claim C10 (corrected): in DISPLAYING, a SELECT press toggles the
auto-advance flag and resets the last-advance tick to the current time,
so no automatic advance fires less than the advance delay after the
toggle; the current index is unchanged provided the re-render of the
current image succeeds (on a failed load the skip policy moves it, as
the counterexample shows). -/
theorem handleButton_select_toggles (loadOk : Nat → Bool) (now : Nat)
    (s : ControllerState) (hstate : s.state = .DISPLAYING)
    (hload : loadOk s.currentImageIndex = true) :
    handleButton loadOk now s ⟨.SELECT, true⟩ =
      ({ s with autoAdvance := !s.autoAdvance, lastAutoAdvanceTick := now },
       true) ∧
    ∀ now2, now2 - now < autoAdvanceDelayMs →
      autoAdvanceStep loadOk now2
          { s with autoAdvance := !s.autoAdvance, lastAutoAdvanceTick := now } =
        { s with autoAdvance := !s.autoAdvance, lastAutoAdvanceTick := now } := by
  obtain ⟨st, n, idx, auto, tick⟩ := s
  simp only at hstate hload
  subst hstate
  constructor
  · show ((⟨State.DISPLAYING, n, displayCurrentImage loadOk n idx,
            !auto, now⟩ : ControllerState), true) = _
    rw [displayCurrentImage_loadOk _ _ _ hload]
  · intro now2 h2
    have hlt : ¬ now2 - now ≥ autoAdvanceDelayMs := by omega
    cases auto <;> simp [autoAdvanceStep, hlt]

/-- Spot instance of handleButton_select_toggles with three images, index
1, auto-advance off and a succeeding load. -/
theorem handleButton_select_toggles_spot :
    (⟨State.DISPLAYING, 3, 1, false, 0⟩ : ControllerState).state =
      State.DISPLAYING ∧
    (fun _ : Nat => true) 1 = true ∧
    (handleButton (fun _ => true) 100 ⟨State.DISPLAYING, 3, 1, false, 0⟩
        ⟨ButtonId.SELECT, true⟩ =
      (⟨State.DISPLAYING, 3, 1, true, 100⟩, true) ∧
     ∀ now2, now2 - 100 < autoAdvanceDelayMs →
       autoAdvanceStep (fun _ => true) now2
           ⟨State.DISPLAYING, 3, 1, true, 100⟩ =
         ⟨State.DISPLAYING, 3, 1, true, 100⟩) :=
  ⟨rfl, rfl,
   handleButton_select_toggles (fun _ => true) 100
     ⟨State.DISPLAYING, 3, 1, false, 0⟩ rfl rfl⟩

/-- Claim C1 counterexample: the 8 bpp path maps the fetched byte 100 to
BLACK although 100 is not below 85, while the claimed route through the
tricolor quantizer on the triple (100,100,100) yields WHITE; so BLACK is
not emitted exactly when the byte is below 85. -/
theorem eightBpp_bypasses_quantizer :
    eightBppPixel [100] 4 0 0 = EinkColor.black ∧
    ¬ (100 : Nat) < 85 ∧
    rgbToEinkColor 100 100 100 = EinkColor.white := by decide

/-- Claim C1 (corrected): each fetched 8 bpp source byte is thresholded
directly at 128 instead of being routed through the tricolor
quantization rule: the emitted color is BLACK exactly when the byte is
below 128, WHITE exactly otherwise, and never RED. -/
theorem eightBpp_threshold (pixelData : List Nat) (rowSize srcY srcX : Nat) :
    (eightBppPixel pixelData rowSize srcY srcX = EinkColor.black ↔
      pixelData.getD (srcY * rowSize + srcX) 0 < 128) ∧
    (eightBppPixel pixelData rowSize srcY srcX = EinkColor.white ↔
      ¬ pixelData.getD (srcY * rowSize + srcX) 0 < 128) ∧
    eightBppPixel pixelData rowSize srcY srcX ≠ EinkColor.red := by
  unfold eightBppPixel eightBppColor
  by_cases h : pixelData.getD (srcY * rowSize + srcX) 0 < 128
  · rw [if_pos h]
    exact ⟨⟨fun _ => h, fun _ => rfl⟩,
           ⟨fun hb => EinkColor.noConfusion hb, fun hcon => (hcon h).elim⟩,
           fun hr => EinkColor.noConfusion hr⟩
  · rw [if_neg h]
    exact ⟨⟨fun hb => EinkColor.noConfusion hb, fun hcon => (h hcon).elim⟩,
           ⟨fun _ => h, fun _ => rfl⟩,
           fun hr => EinkColor.noConfusion hr⟩

/-- Claim C2 counterexample: a header with bitsPerPixel = 4 — outside
the claimed supported set 1, 8, 24 — passes the depth check and the
entire validation sequence, so the decoder does not reject it. -/
theorem depth4_passes_check :
    ({ plainHeader with bitsPerPixel := 4 } : BMPHeader).bitsPerPixel = 4 ∧
    bmpAccepted 100 { plainHeader with bitsPerPixel := 4 } = true := by decide

/-- Claim C2 (corrected): the depth check accepts exactly the bit depths
1, 4, 8 and 24 (as the source comment states): with a sufficient file
size and a good signature, validation succeeds iff bitsPerPixel is one
of 1, 4, 8, 24, and rejects every depth outside that set. -/
theorem checkBMPHeader_depth_iff (fileSize : Int) (h : BMPHeader)
    (hsize : (bmpHeaderSize : Int) ≤ fileSize) (hsig : h.signature = 0x4D42) :
    checkBMPHeader fileSize h = none ↔
      (h.bitsPerPixel = 1 ∨ h.bitsPerPixel = 4 ∨
       h.bitsPerPixel = 8 ∨ h.bitsPerPixel = 24) := by
  have h1 : ¬ (fileSize < 0 || fileSize < (bmpHeaderSize : Int)) = true := by
    simp only [bmpHeaderSize] at hsize ⊢
    simp only [Bool.or_eq_true, decide_eq_true_eq, not_or]
    constructor <;> omega
  unfold checkBMPHeader
  rw [if_neg h1, if_neg (by simp [hsig])]
  constructor
  · intro hnone
    by_contra hc
    push_neg at hc
    rw [if_pos ?hp] at hnone
    · exact Option.noConfusion hnone
    case hp =>
      simp only [Bool.and_eq_true, bne_iff_ne, ne_eq]
      exact ⟨⟨⟨hc.1, hc.2.1⟩, hc.2.2.1⟩, hc.2.2.2⟩
  · intro hd
    rw [if_neg]
    intro hcond
    simp only [Bool.and_eq_true, bne_iff_ne, ne_eq] at hcond
    rcases hd with h4 | h4 | h4 | h4
    · exact hcond.1.1.1 h4
    · exact hcond.1.1.2 h4
    · exact hcond.1.2 h4
    · exact hcond.2 h4

/-- Spot instance of checkBMPHeader_depth_iff on plainHeader with file
size 100. -/
theorem checkBMPHeader_depth_iff_spot :
    (bmpHeaderSize : Int) ≤ 100 ∧ plainHeader.signature = 0x4D42 ∧
    (checkBMPHeader 100 plainHeader = none ↔
      (plainHeader.bitsPerPixel = 1 ∨ plainHeader.bitsPerPixel = 4 ∨
       plainHeader.bitsPerPixel = 8 ∨ plainHeader.bitsPerPixel = 24)) :=
  ⟨by decide, rfl, checkBMPHeader_depth_iff 100 plainHeader (by decide) rfl⟩

/-- Claim C3 counterexample: a header with nonzero compression code,
valid in every other respect, is accepted by the validation sequence and
goes on to be rendered; the decoder does not reject it. -/
theorem nonzero_compression_accepted :
    ({ plainHeader with compression := 1 } : BMPHeader).compression ≠ 0 ∧
    bmpAccepted 100 { plainHeader with compression := 1 } = true := by decide

/-- Claim C3 (corrected): the decoder never reads the compression field:
the outcome of validation is invariant under changing it, so acceptance
and rendering are independent of the compression code, and a nonzero
code does not cause rejection. -/
theorem checkBMPHeader_compression_ignored (fileSize : Int) (h : BMPHeader)
    (c : Nat) :
    checkBMPHeader fileSize { h with compression := c } =
      checkBMPHeader fileSize h := rfl

/-- Claim C4 counterexample: a header with width and height both 0 passes
the whole validation sequence, so the scaler is reached with image
dimensions 0 as divisors for the scale computation. -/
theorem zero_dimensions_accepted :
    bmpAccepted 100 { plainHeader with width := 0, height := 0 } = true ∧
    imgWidth { plainHeader with width := 0, height := 0 } = 0 ∧
    imgHeight { plainHeader with width := 0, height := 0 } = 0 := by decide

/-- Claim C4 (corrected): the decoder performs no dimension check at
all: validation is invariant under changing width and height, so a zero
dimension is never rejected and reaches the scale computation
DISPLAY_WIDTH / imgWidth and DISPLAY_HEIGHT / imgHeight as a zero
divisor. -/
theorem checkBMPHeader_dimensions_ignored (fileSize : Int) (h : BMPHeader)
    (w ht : Int) :
    checkBMPHeader fileSize { h with width := w, height := ht } =
      checkBMPHeader fileSize h := rfl

/-- Claim C5 (confirmed): for every width the per-depth row strides of
the pixel loops — ((w*3+3)/4)*4 for 24 bpp, ((w+3)/4)*4 for 8 bpp and
(((w+7)/8)+3)/4*4 for 1 bpp — each equal the spec stride
((bpp*w+31)/32)*4, i.e. ceil(bpp*w/32)*4. -/
theorem stride_law (w : Nat) :
    rowSize24 w = specStride 24 w ∧
    rowSize8 w = specStride 8 w ∧
    rowSize1 w = specStride 1 w := by
  unfold rowSize24 rowSize8 rowSize1 specStride
  refine ⟨?_, ?_, ?_⟩ <;> omega

theorem matchesExtension_eq (name : List Char) :
    matchesExtension name =
      (List.isSuffixOf ['.', 'b', 'm', 'p'] name ||
       List.isSuffixOf ['.', 'B', 'M', 'P'] name) := by
  unfold matchesExtension IMAGE_EXTENSIONS
  simp only [List.any_cons, List.any_nil, Bool.or_false]
  have hdrop : ∀ ext : List Char,
      (decide (name.length ≥ ext.length) && List.isSuffixOf ext name) =
        List.isSuffixOf ext name := by
    intro ext
    cases hs : List.isSuffixOf ext name with
    | true =>
      have hlen : ext.length ≤ name.length :=
        List.IsSuffix.length_le (List.isSuffixOf_iff_suffix.mp hs)
      simp [hlen]
    | false => simp
  rw [hdrop, hdrop]

theorem scanLoop_eq (directory : List Char) (entries : List DirEntry) :
    ∀ count : Nat,
      scanLoop directory entries count =
        ((entries.filter entryAccepted).take (MAX_IMAGE_FILES - count)).map
          (fun e => directory ++ '/' :: e.name) := by
  induction entries with
  | nil => intro count; simp [scanLoop]
  | cons e rest ih =>
    intro count
    by_cases hc : count < MAX_IMAGE_FILES
    · by_cases ha : entryAccepted e = true
      · have h1 : MAX_IMAGE_FILES - count =
            (MAX_IMAGE_FILES - (count + 1)) + 1 := by omega
        simp only [scanLoop, if_pos hc, if_pos ha, ih (count + 1),
          List.filter_cons, h1, List.take_succ_cons, List.map_cons]
      · simp only [scanLoop, if_pos hc, if_neg ha, ih count,
          List.filter_cons]
    · have h0 : MAX_IMAGE_FILES - count = 0 := by omega
      simp only [scanLoop, if_neg hc, h0, List.take_zero, List.map_nil]

/-- Claim C8 counterexample: a directory entry that is itself a
directory but whose name ends in .bmp is returned by the scan — the
entry type is never inspected — refuting the part of the claim that
subdirectories are excluded. -/
theorem subdirectory_with_bmp_name_included :
    (⟨['s', 'u', 'b', '.', 'b', 'm', 'p'], true⟩ : DirEntry).isDir = true ∧
    scanForImages ['d'] [⟨['s', 'u', 'b', '.', 'b', 'm', 'p'], true⟩] =
      [['d', '/', 's', 'u', 'b', '.', 'b', 'm', 'p']] := by decide

/-- Claim C8 (corrected): the scan returns, in directory order and
capped at the first 100 accepted entries, exactly the entries whose
names do not begin with a dot and end with .bmp or .BMP under a
case-sensitive comparison — regardless of whether the entry is a regular
file or a subdirectory, since the entry type is never consulted. -/
theorem scanForImages_filter_take (directory : List Char)
    (entries : List DirEntry) :
    scanForImages directory entries =
      ((entries.filter entryAccepted).take MAX_IMAGE_FILES).map
        (fun e => directory ++ '/' :: e.name) ∧
    (scanForImages directory entries).length ≤ MAX_IMAGE_FILES ∧
    ∀ e : DirEntry, entryAccepted e =
      (!startsWithDot e.name &&
        (List.isSuffixOf ['.', 'b', 'm', 'p'] e.name ||
         List.isSuffixOf ['.', 'B', 'M', 'P'] e.name)) := by
  refine ⟨?_, ?_, ?_⟩
  · have h := scanLoop_eq directory entries 0
    rwa [Nat.sub_zero] at h
  · have h := scanLoop_eq directory entries 0
    rw [Nat.sub_zero] at h
    show (scanLoop directory entries 0).length ≤ MAX_IMAGE_FILES
    rw [h, List.length_map, List.length_take]
    exact Nat.min_le_left _ _
  · intro e
    unfold entryAccepted
    rw [matchesExtension_eq]

end Slideshow
